import Mathlib

/-!
Verification development for the Stock-performance-analyzer repository
(`src/App.py`).  The file shallowly embeds the decision logic of the app:

* `get_ticker` — name → symbol resolution (App.py lines 30–37);
* `valid_tickers` / `resolve_calls` / `app_run` — the input loop and the
  guards around the data fetches (lines 55–62, 64, 91);
* the time-series alignment and normalization pipeline
  (lines 92–97): slicing by date arithmetic, forward fill, division by the
  first in-window value times 100;
* the sidebar fundamentals display (line 71) and the per-ticker metrics
  loop (lines 122–171): market cap, the insider heuristic, the earnings
  countdown, with per-symbol and per-field exception scopes.

Modelling conventions: Python floats are embedded as `ℚ`; a pandas `NaN`
(and the non-finite results of dividing by zero) is `Option.none`, so a
price column is a `List (Option ℚ)`.  A Python value that may be a string
or absent is an `Option`.  An external call that may raise is given an
oracle returning a sum type with an explicit error constructor, and the
number of oracle invocations is returned alongside the result so that
"no network call" is a provable statement.  Characters are modelled in
ASCII: `Char.isUpper`/`Char.isAlpha` stand for Python's `str.isupper`
casedness on the inputs of interest.
-/

/-- ASCII whitespace, standing for the characters Python's `str.strip`
removes on the inputs of interest. -/
def isSpace (c : Char) : Bool :=
  c = ' ' || c = '\t' || c = '\n' || c = '\r'

/-- Python `name.strip()`: drop whitespace from both ends. -/
def pyStrip (s : String) : String :=
  ⟨((s.toList.dropWhile isSpace).reverse.dropWhile isSpace).reverse⟩

/-- Python `len(s)` — the number of characters. -/
def pyLen (s : String) : Nat := s.toList.length

/-- A character is cased (ASCII model: a letter). -/
def isCased (c : Char) : Bool := c.isAlpha

/-- Python `s.isupper()`: at least one cased character, and every cased
character is uppercase. -/
def pyIsUpper (s : String) : Bool :=
  s.toList.any isCased && s.toList.all (fun c => !isCased c || c.isUpper)

/-- Outcome of `yf.Search(name, max_results=1)` as observed by
`get_ticker`: either the list of quote symbols, or an exception anywhere
on the search path (including a missing `symbol` key). -/
inductive SearchOutcome where
  | ok (quotes : List String)
  | err
deriving DecidableEq

/-- The function `get_ticker` (App.py lines 30–37).  The second component counts how
many times the search oracle was invoked (0 or 1), so that "no network
call" is visible in the result.  `name.strip()` is applied first; an
empty stripped name returns `None`; an upper-case name of length 1–5 is
returned as-is without searching; otherwise the first search quote's
symbol is returned, with every failure (no quotes, exception) mapped to
`None`. -/
def get_ticker (search : String → SearchOutcome) (name : String) :
    Option String × Nat :=
  if pyLen (pyStrip name) = 0 then (none, 0)
  else if pyIsUpper (pyStrip name) = true ∧ 1 ≤ pyLen (pyStrip name) ∧
      pyLen (pyStrip name) ≤ 5 then
    (some (pyStrip name), 0)
  else
    match search (pyStrip name) with
    | .ok [] => (none, 1)
    | .ok (q :: _) => (some q, 1)
    | .err => (none, 1)

/-- One iteration of the input loop (App.py lines 58–62): the raw text is
first tested for truthiness (`if name:`), then resolved. -/
def resolve1 (search : String → SearchOutcome) (n : String) : Option String :=
  if pyLen n = 0 then none else (get_ticker search n).1

/-- The list `valid_tickers` (App.py lines 55–62): the resolved symbols are
appended in input order; nothing is deduplicated. -/
def valid_tickers (search : String → SearchOutcome) (names : List String) :
    List String :=
  names.foldl
    (fun acc n =>
      if pyLen n = 0 then acc
      else
        match (get_ticker search n).1 with
        | some t => acc ++ [t]
        | none => acc)
    []

/-- Total number of search-oracle invocations made by the input loop. -/
def resolve_calls (search : String → SearchOutcome) (names : List String) :
    Nat :=
  names.foldl
    (fun k n => if pyLen n = 0 then k else k + (get_ticker search n).2) 0

/-- A search oracle used in concrete evaluations: it knows the name
"apple" and fails on everything else. -/
def demo_search : String → SearchOutcome :=
  fun n => if n = "apple" then .ok ["AAPL"] else .err

/-- Two successive resolutions of the same name, counting the total
number of search-oracle invocations.  There is no cache anywhere in
App.py, so each run of the script re-invokes the oracle. -/
def resolve_twice_calls (search : String → SearchOutcome) (name : String) :
    Nat :=
  (get_ticker search name).2 + (get_ticker search name).2

/-! ## Analytics facade (App.py lines 64–97 guards) -/

/-- The observable shape of one run of the page: the resolved symbols and
how many Gateway calls of each kind were made.  `yf.download` (line 92),
the sidebar fundamentals loop (lines 67–81) and the bottom metrics loop
(lines 122–171) are all guarded by `if valid_tickers:`. -/
structure Report where
  symbols : List String
  searchCalls : Nat
  downloadCalls : Nat
  fundamentalsCalls : Nat
  metricsCalls : Nat
deriving DecidableEq

/-- The report of a run in which nothing resolved and no Gateway call was
made. -/
def emptyReport : Report :=
  { symbols := [], searchCalls := 0, downloadCalls := 0,
    fundamentalsCalls := 0, metricsCalls := 0 }

/-- One run of the page: resolve every name, and only when at least one
symbol resolved perform the single batched download, one fundamentals
fetch per symbol, and one metrics fetch per symbol. -/
def app_run (search : String → SearchOutcome) (names : List String) :
    Report :=
  if (valid_tickers search names).isEmpty then
    { symbols := [], searchCalls := resolve_calls search names,
      downloadCalls := 0, fundamentalsCalls := 0, metricsCalls := 0 }
  else
    { symbols := valid_tickers search names,
      searchCalls := resolve_calls search names, downloadCalls := 1,
      fundamentalsCalls := (valid_tickers search names).length,
      metricsCalls := (valid_tickers search names).length }

/-! ## Time-series aligner (App.py lines 92–97)

`raw_data` is a frame over a common date index; a column is a
`List (Option ℚ)` aligned with the dates, `none` standing for `NaN`.
`start_date = raw_data.index[-1] - timedelta(days=days_back)`;
`chart_data = raw_data.loc[start_date:].ffill()`;
`norm_data = (chart_data / chart_data.iloc[0]) * 100`. -/

/-- Division with pandas missing-value semantics collapsed to `Option`:
a missing operand, or a zero divisor (whose float result is `inf`/`NaN`,
in any case not a finite price ratio), yields `none`. -/
def divOpt : Option ℚ → Option ℚ → Option ℚ
  | some a, some b => if b = 0 then none else some (a / b)
  | _, _ => none

/-- Forward fill with the last seen value (`none` before any value has
been seen): leading missing entries stay missing. -/
def ffill (last : Option ℚ) : List (Option ℚ) → List (Option ℚ)
  | [] => []
  | some v :: xs => some v :: ffill (some v) xs
  | none :: xs => last :: ffill last xs

/-- Pandas `DataFrame.ffill()` on one column of the sliced frame: nothing before
the slice is visible, so the fill starts from `none`. -/
def ffillCol (c : List (Option ℚ)) : List (Option ℚ) := ffill none c

/-- The slice bound `start_date`: the last date of the fetched index minus the selected
horizon in days (App.py line 95). -/
def window_start (dates : List Int) (daysBack : Int) : Int :=
  (dates.getLast?.getD 0) - daysBack

/-- Slicing `raw_data.loc[start_date:]` on one column: keep the entries whose
date is at least `start_date`. -/
def sliceCol (dates : List Int) (daysBack : Int) (c : List (Option ℚ)) :
    List (Option ℚ) :=
  ((dates.zip c).filter
    (fun p => window_start dates daysBack ≤ p.1)).map Prod.snd

/-- Compute `chart_data` for one column: slice, then forward-fill. -/
def chart_col (dates : List Int) (daysBack : Int) (c : List (Option ℚ)) :
    List (Option ℚ) :=
  ffillCol (sliceCol dates daysBack c)

/-- Normalization `(chart_data / chart_data.iloc[0]) * 100` on one column.  The empty
column has no first row (pandas would raise before this point, since the
slice always retains the last index date); otherwise every entry is
divided by the first entry of the sliced, forward-filled column. -/
def normCol : List (Option ℚ) → List (Option ℚ)
  | [] => []
  | base :: rest =>
    (base :: rest).map (fun x => (divOpt x base).map (fun q => q * 100))

/-- The frame `norm_data` (App.py line 97): every input column — every requested
symbol plus the benchmark — is normalized; no column is dropped and no
degradation flag exists. -/
def align (dates : List Int) (daysBack : Int)
    (cols : List (String × List (Option ℚ))) :
    List (String × List (Option ℚ)) :=
  cols.map (fun p => (p.1, normCol (chart_col dates daysBack p.2)))

/-! ## Fundamentals snapshot and the sidebar P/E (App.py line 71) -/

/-- The fields of `yf.Ticker(t).info` the app reads.  `none` stands for
an absent (or non-numeric, where the code checks) field. -/
structure Info where
  forwardPE : Option ℚ
  trailingPE : Option ℚ
  forwardEps : Option ℚ
  trailingEps : Option ℚ
  marketCap : Option ℚ
deriving DecidableEq

/-- What the sidebar P/E cell shows: a number, or the string `'N/A'`. -/
inductive PEDisplay where
  | value (q : ℚ)
  | na
deriving DecidableEq

/-- The sidebar cell `pe = info.get('forwardPE', 'N/A')` (App.py line 71): the snapshot
field verbatim when present, the `'N/A'` default otherwise.  This is the
only P/E the app computes. -/
def pe (info : Info) : PEDisplay :=
  match info.forwardPE with
  | some v => .value v
  | none => .na

/-- The EPS-derived step of the spec's P/E fallback chain, following the
spec's words: `current_price / eps` when the EPS is present and
positive. -/
def pe_from_eps (current_price : ℚ) (eps : Option ℚ) : Option ℚ :=
  match eps with
  | some e => if 0 < e then some (current_price / e) else none
  | none => none

/-- The spec's forward P/E fallback chain, following the spec's words
(for comparison with `pe`): the snapshot field when present and positive,
else price over forward EPS when that is present and positive, else
unavailable. -/
def spec_forwardPE (current_price : ℚ) (info : Info) : Option ℚ :=
  match info.forwardPE with
  | some v => if 0 < v then some v else pe_from_eps current_price info.forwardEps
  | none => pe_from_eps current_price info.forwardEps

/-- The spec's trailing P/E fallback chain, following the spec's words
(for comparison): same pattern with the trailing fields. -/
def spec_trailingPE (current_price : ℚ) (info : Info) : Option ℚ :=
  match info.trailingPE with
  | some v => if 0 < v then some v else pe_from_eps current_price info.trailingEps
  | none => pe_from_eps current_price info.trailingEps

/-! ## Insider value and the per-ticker metrics loop (App.py 122–171) -/

/-- The heuristic `insider_val` (App.py line 139): `info.get('marketCap', 0) * 0.000045`
when the market cap is numeric, else `0`.  The float constant `0.000045`
is embedded as the rational `45 / 1000000`. -/
def insider_val (marketCap : Option ℚ) : ℚ :=
  match marketCap with
  | some m => m * (45 / 1000000)
  | none => 0

/-- The label under which the insider value is rendered (App.py line
154); the code has no other marking for it. -/
def insider_stat_label : String := "3M Insider Buy Vol"

/-- One row of the Gateway's insider-transaction feed, as described by
the spec (§6): share volume and free transaction text.  App.py never
fetches this feed. -/
structure InsiderTx where
  shares : ℚ
  text : String
deriving DecidableEq

/-- Predicate `starts_with pat s`: `pat` is a prefix of `s`. -/
def starts_with : List Char → List Char → Bool
  | [], _ => true
  | _ :: _, [] => false
  | p :: ps, c :: cs => p = c && starts_with ps cs

/-- Predicate `has_sub pat s`: `pat` occurs as a contiguous substring of `s`. -/
def has_sub (pat : List Char) : List Char → Bool
  | [] => starts_with pat []
  | c :: cs => starts_with pat (c :: cs) || has_sub pat cs

/-- The spec's purchase/acquisition text test (case-insensitive substring
match), following the spec's words. -/
def isBuyTx (t : InsiderTx) : Bool :=
  has_sub "purchase".toList (t.text.toList.map Char.toLower) ||
  has_sub "acquisition".toList (t.text.toList.map Char.toLower)

/-- The spec's true-feed insider buy volume, following the spec's words:
the sum of share volumes of the purchase rows. -/
def buy_volume (feed : List InsiderTx) : ℚ :=
  (feed.filter isBuyTx).foldl (fun s t => s + t.shares) 0

/-- The result of one external call that may raise. -/
inductive Fetch (α : Type) where
  | ok (a : α)
  | fail
deriving DecidableEq

/-- What a ticker's Gateway exposes to one iteration of the metrics loop:
the `info` snapshot, the earnings calendar (`some d` = an earnings date
`d` days from now, `none` = no `'Earnings Date'` key), and the
insider-transaction feed (which the code never reads). -/
structure TickerGateway where
  info : Fetch Info
  calendar : Fetch (Option Int)
  insiders : Fetch (List InsiderTx)
deriving DecidableEq

/-- The earnings-countdown cell (App.py lines 143–150). -/
inductive DaysText where
  | na
  | days (n : Int)
  | passed
deriving DecidableEq

/-- The countdown `days_text`: `'N/A'` when the calendar call fails or lacks an
earnings date; otherwise the day count, or `'Passed'` when negative. -/
def days_text : Fetch (Option Int) → DaysText
  | .fail => .na
  | .ok none => .na
  | .ok (some d) => if 0 ≤ d then .days d else .passed

/-- The stat box rendered for one ticker (App.py lines 135–169):
market cap (shown as `'N/A'` when `none`), the insider heuristic value,
and the earnings countdown. -/
structure StatBox where
  m_cap : Option ℚ
  insider : ℚ
  days : DaysText
deriving DecidableEq

/-- Build the stat box from a fetched `info` and the calendar outcome. -/
def mkStatBox (info : Info) (cal : Fetch (Option Int)) : StatBox :=
  { m_cap := info.marketCap, insider := insider_val info.marketCap,
    days := days_text cal }

/-- The price metric at the top of one ticker's column (App.py lines
125–128): the last chart value and the total return, from the ticker's
`chart_data` column.  A missing column or an empty column raises inside
its own `try`, rendering the error cell (`none`); a `NaN` endpoint flows
through as a missing numeric (`none` inside). -/
def priceCell : Option (List (Option ℚ)) → Option (Option ℚ × Option ℚ)
  | none => none
  | some c =>
    match c.head?, c.getLast? with
    | some f, some l => some (l, (divOpt l f).map (fun r => (r - 1) * 100))
    | _, _ => none

/-- Everything rendered for one ticker by the metrics loop: the price
metric (or its error cell) and the stat box (or the
"Data partially unavailable" caption, `none`). -/
structure TickerOutput where
  price : Option (Option ℚ × Option ℚ)
  statBox : Option StatBox
deriving DecidableEq

/-- One iteration of the metrics loop (App.py lines 122–171): the price
metric is computed inside its own `try`; the `info` fetch failing
degrades the whole stat box; the calendar fetch failing degrades only the
earnings countdown; the insider feed is never consulted. -/
def processTicker (col : Option (List (Option ℚ))) (g : TickerGateway) :
    TickerOutput :=
  { price := priceCell col,
    statBox :=
      match g.info with
      | .fail => none
      | .ok info => some (mkStatBox info g.calendar) }

/-- The whole metrics loop: one `TickerOutput` per ticker, in order, each
produced from that ticker's own column and Gateway data. -/
def metricsLoop (data : String → Option (List (Option ℚ)))
    (gw : String → TickerGateway) (tickers : List String) :
    List (String × TickerOutput) :=
  tickers.map (fun t => (t, processTicker (data t) (gw t)))

/-! ## Concrete data for witnesses and counterexamples -/

/-- A snapshot with both P/E fields absent but both EPS fields 5 — the
spec's "fallback correctness" scenario. -/
def eps_only_info : Info :=
  { forwardPE := none, trailingPE := none, forwardEps := some 5,
    trailingEps := some 5, marketCap := none }

/-- A snapshot with every field absent. -/
def all_none_info : Info :=
  { forwardPE := none, trailingPE := none, forwardEps := none,
    trailingEps := none, marketCap := none }

/-- A snapshot whose only field is `forwardPE = 7`. -/
def fpe7_info : Info :=
  { forwardPE := some 7, trailingPE := none, forwardEps := none,
    trailingEps := none, marketCap := none }

/-- A snapshot whose only field is a market cap of 1 000 000. -/
def mc_info : Info :=
  { forwardPE := none, trailingPE := none, forwardEps := none,
    trailingEps := none, marketCap := some 1000000 }

/-- A single insider purchase of 100 shares. -/
def one_purchase : List InsiderTx := [⟨100, "Purchase of shares"⟩]

/-! ## Helper lemmas -/

lemma pyIsUpper_of_all_upper (s : String)
    (h : s.toList.all Char.isUpper = true) (hlen : 1 ≤ pyLen s) :
    pyIsUpper s = true := by
  unfold pyIsUpper
  rw [Bool.and_eq_true]
  rw [List.all_eq_true] at h
  constructor
  · rw [List.any_eq_true]
    obtain ⟨c, hc⟩ := List.exists_mem_of_length_pos (l := s.toList) hlen
    refine ⟨c, hc, ?_⟩
    have hu := h c hc
    simp [isCased, Char.isAlpha, hu]
  · rw [List.all_eq_true]
    intro c hc
    simp [isCased, h c hc]

lemma get_ticker_of_blank (search : String → SearchOutcome) (n : String)
    (h : pyLen (pyStrip n) = 0) : get_ticker search n = (none, 0) := by
  unfold get_ticker
  rw [if_pos h]

lemma valid_tickers_step (search : String → SearchOutcome)
    (acc : List String) (n : String) :
    (if pyLen n = 0 then acc
     else
       match (get_ticker search n).1 with
       | some t => acc ++ [t]
       | none => acc)
    = acc ++ (resolve1 search n).toList := by
  unfold resolve1
  by_cases h : pyLen n = 0
  · simp [h]
  · simp only [if_neg h]
    rcases (get_ticker search n).1 with _ | t <;> simp

lemma valid_tickers_aux (search : String → SearchOutcome) :
    ∀ (names : List String) (acc : List String),
      names.foldl
        (fun acc n =>
          if pyLen n = 0 then acc
          else
            match (get_ticker search n).1 with
            | some t => acc ++ [t]
            | none => acc)
        acc
      = acc ++ names.filterMap (resolve1 search) := by
  intro names
  induction names with
  | nil => intro acc; simp
  | cons n ns ih =>
    intro acc
    rw [List.foldl_cons, valid_tickers_step]
    rcases h : resolve1 search n with _ | t
    · simp [h, List.filterMap_cons, ih]
    · simp [h, List.filterMap_cons, ih]

lemma valid_tickers_eq (search : String → SearchOutcome) (names : List String) :
    valid_tickers search names = names.filterMap (resolve1 search) := by
  unfold valid_tickers
  simpa using valid_tickers_aux search names []

lemma resolve_calls_aux (search : String → SearchOutcome) :
    ∀ (names : List String), (∀ n ∈ names, pyLen (pyStrip n) = 0) →
      ∀ (k : Nat),
        names.foldl
          (fun k n => if pyLen n = 0 then k else k + (get_ticker search n).2)
          k = k := by
  intro names
  induction names with
  | nil => intro _ k; rfl
  | cons n ns ih =>
    intro h k
    rw [List.foldl_cons]
    have hn : pyLen (pyStrip n) = 0 := h n (by simp)
    have step : (if pyLen n = 0 then k
        else k + (get_ticker search n).2) = k := by
      by_cases h0 : pyLen n = 0
      · rw [if_pos h0]
      · rw [if_neg h0, get_ticker_of_blank search n hn]; rfl
    rw [step]
    exact ih (fun m hm => h m (by simp [hm])) k

/-- Claim C3: for every input whose trimmed text consists entirely of
upper-case letters and is 1 to 5 characters long, `get_ticker` returns
that trimmed string unchanged, with zero search-oracle invocations. -/
theorem resolve_upper_shortcut (search : String → SearchOutcome)
    (name : String)
    (hall : (pyStrip name).toList.all Char.isUpper = true)
    (h1 : 1 ≤ pyLen (pyStrip name)) (h5 : pyLen (pyStrip name) ≤ 5) :
    get_ticker search name = (some (pyStrip name), 0) := by
  have hup := pyIsUpper_of_all_upper (pyStrip name) hall h1
  unfold get_ticker
  rw [if_neg (by omega), if_pos ⟨hup, h1, h5⟩]

/-- Witness for C3 at the input `" AAPL "`. -/
theorem resolve_upper_shortcut_witness :
    (pyStrip " AAPL ").toList.all Char.isUpper = true ∧
    get_ticker demo_search " AAPL " = (some (pyStrip " AAPL "), 0) :=
  ⟨by decide,
   resolve_upper_shortcut demo_search " AAPL " (by decide) (by decide)
     (by decide)⟩

/-- Claim C10: `get_ticker` is total — a blank input returns `None` with
no search call; if the search path was taken (one invocation) and the
oracle raised, the exception is converted to `None`; the oracle is
invoked at most once; and the result is always `None` or a symbol. -/
theorem get_ticker_total (search : String → SearchOutcome) (name : String) :
    (pyLen (pyStrip name) = 0 → get_ticker search name = (none, 0)) ∧
    ((get_ticker search name).2 = 1 →
      search (pyStrip name) = SearchOutcome.err →
      (get_ticker search name).1 = none) ∧
    (get_ticker search name).2 ≤ 1 ∧
    ((get_ticker search name).1 = none ∨
      ∃ t, (get_ticker search name).1 = some t) := by
  unfold get_ticker
  split
  next h => simp [h]
  next h =>
    split
    next h2 => simp [h]
    next h2 =>
      rcases hs : search (pyStrip name) with l | _
      · rcases l with _ | ⟨q, qs⟩ <;> simp [hs, h]
      · simp [hs, h]

/-- Witness for C10: a whitespace-only name makes no call, and an
erroring search is converted to `None`. -/
theorem get_ticker_total_witness :
    get_ticker demo_search " " = (none, 0) ∧
    (get_ticker demo_search "zz?").1 = none :=
  ⟨(get_ticker_total demo_search " ").1 (by decide),
   (get_ticker_total demo_search "zz?").2.1 (by decide) (by decide)⟩

/-- Claim C2 counterexample: there is no cache in App.py, so resolving
the same (non-ticker-shaped) name twice invokes the search oracle twice,
not once as the claim states. -/
theorem no_cache_cex :
    resolve_twice_calls demo_search "apple" = 2 ∧ (2 : Nat) ≠ 1 := by
  decide

/-- Claim C2 (amended): two resolutions of the same nonempty,
non-ticker-shaped name always invoke the search oracle exactly twice —
no result is ever cached. -/
theorem no_cache_two_fetches (search : String → SearchOutcome)
    (name : String) (h0 : ¬ pyLen (pyStrip name) = 0)
    (h1 : ¬ (pyIsUpper (pyStrip name) = true ∧ 1 ≤ pyLen (pyStrip name) ∧
      pyLen (pyStrip name) ≤ 5)) :
    resolve_twice_calls search name = 2 := by
  have hc : (get_ticker search name).2 = 1 := by
    unfold get_ticker
    rw [if_neg h0, if_neg h1]
    rcases hs : search (pyStrip name) with l | _
    · rcases l with _ | ⟨q, qs⟩ <;> rfl
    · rfl
  unfold resolve_twice_calls
  omega

/-- Witness for the amended C2 at the name `"apple"`. -/
theorem no_cache_two_fetches_witness :
    ¬ pyLen (pyStrip "apple") = 0 ∧
    resolve_twice_calls demo_search "apple" = 2 :=
  ⟨by decide, no_cache_two_fetches demo_search "apple" (by decide) (by decide)⟩

/-- Claim C8 counterexample: entering the same name twice yields the
same symbol twice — the resolved list is not duplicate-free. -/
theorem resolved_list_dup_cex :
    valid_tickers demo_search ["AAPL", "AAPL"] = ["AAPL", "AAPL"] ∧
    ¬ (valid_tickers demo_search ["AAPL", "AAPL"]).Nodup := by
  decide

/-- Claim C8 (amended): the resolved list is the input-order `filterMap`
of per-name resolution — order is preserved, but duplicates are kept. -/
theorem resolved_list_filterMap (search : String → SearchOutcome)
    (names : List String) :
    valid_tickers search names = names.filterMap (resolve1 search) :=
  valid_tickers_eq search names

/-- Claim C4: a blank name resolves to `None` with no search call, and a
request whose names are all blank yields the empty report with zero
Gateway calls of any kind. -/
theorem empty_input_no_calls (search : String → SearchOutcome)
    (names : List String) (h : ∀ n ∈ names, pyLen (pyStrip n) = 0) :
    (∀ n ∈ names, get_ticker search n = (none, 0)) ∧
    valid_tickers search names = [] ∧
    resolve_calls search names = 0 ∧
    app_run search names = emptyReport := by
  have hval : valid_tickers search names = [] := by
    rw [valid_tickers_eq, List.filterMap_eq_nil_iff]
    intro n hn
    unfold resolve1
    by_cases h0 : pyLen n = 0
    · rw [if_pos h0]
    · rw [if_neg h0, get_ticker_of_blank search n (h n hn)]
  have hcalls : resolve_calls search names = 0 := by
    unfold resolve_calls
    exact resolve_calls_aux search names h 0
  refine ⟨fun n hn => get_ticker_of_blank search n (h n hn), hval, hcalls, ?_⟩
  unfold app_run
  rw [hval, hcalls]
  rfl

/-- Witness for C4 at the spec's scenario `["", "   "]`. -/
theorem empty_input_no_calls_witness :
    valid_tickers demo_search ["", "   "] = [] ∧
    resolve_calls demo_search ["", "   "] = 0 ∧
    app_run demo_search ["", "   "] = emptyReport :=
  ⟨(empty_input_no_calls demo_search ["", "   "] (by decide)).2.1,
   (empty_input_no_calls demo_search ["", "   "] (by decide)).2.2.1,
   (empty_input_no_calls demo_search ["", "   "] (by decide)).2.2.2⟩

lemma normCol_head_of_first (v : ℚ) (l : List (Option ℚ))
    (h : l.head? = some (some v)) (hv : v ≠ 0) :
    (normCol l).head? = some (some 100) := by
  rcases l with _ | ⟨x, rest⟩
  · simp at h
  · simp only [List.head?_cons, Option.some.injEq] at h
    subst h
    simp [normCol, divOpt, hv, div_self hv]

/-- Claim C1 (amended): a symbol whose first in-window forward-filled
value is present and nonzero appears in the aligner's output with value
100 at the first in-window date.  (Unamended, the claim fails when the
first value is missing or zero: the column is still present in the
output but its first normalized value is not 100.) -/
theorem norm_starts_at_100 (dates : List Int) (daysBack : Int)
    (cols : List (String × List (Option ℚ))) (s : String)
    (c : List (Option ℚ)) (v : ℚ) (hmem : (s, c) ∈ cols)
    (hfirst : (chart_col dates daysBack c).head? = some (some v))
    (hv : v ≠ 0) :
    (s, normCol (chart_col dates daysBack c)) ∈ align dates daysBack cols ∧
    (normCol (chart_col dates daysBack c)).head? = some (some 100) :=
  ⟨List.mem_map_of_mem _ hmem, normCol_head_of_first v _ hfirst hv⟩

/-- Witness for the amended C1 on a concrete two-day window. -/
theorem norm_starts_at_100_witness :
    ("A", normCol (chart_col [0, 1] 5 [some 50, some 60])) ∈
      align [0, 1] 5 [("A", [some 50, some 60])] ∧
    (normCol (chart_col [0, 1] 5 [some 50, some 60])).head? =
      some (some 100) :=
  norm_starts_at_100 [0, 1] 5 [("A", [some 50, some 60])] "A"
    [some 50, some 60] 50 (by simp) (by decide) (by norm_num)

/-- Claim C1 counterexample: symbol `"B"` has no price at the first
in-window date (e.g. it listed mid-window), yet it is present in the
aligner's output; its first normalized value is `none` (NaN), not 100. -/
theorem norm_base_nan_cex :
    align [0, 1] 5 [("A", [some 50, some 60]), ("B", [none, some 50])] =
      [("A", [some 100, some 120]), ("B", [none, none])] ∧
    (none : Option ℚ) ≠ some 100 := by
  constructor
  · norm_num [align, normCol, chart_col, ffillCol, ffill, sliceCol,
      window_start, divOpt]
  · simp

/-- Claim C5 (amended): the aligner's output keys are exactly all its
input columns — every requested symbol plus the benchmark — regardless
of whether a symbol has any priced observation in-window; nothing is
excluded and no degraded-normalization flag exists. -/
theorem align_keeps_all_columns (dates : List Int) (daysBack : Int)
    (cols : List (String × List (Option ℚ))) :
    (align dates daysBack cols).map Prod.fst = cols.map Prod.fst := by
  simp [align, List.map_map]

/-- Claim C5 counterexample: symbol `"B"` has zero priced observations
in-window (its sliced column is all missing), yet it remains among the
aligner's output keys, contradicting "output keys are exactly the
symbols that had at least one priced observation in-window". -/
theorem align_no_exclusion_cex :
    (align [0, 1] 5 [("A", [some 50, some 60]),
        ("B", [none, none])]).map Prod.fst = ["A", "B"] ∧
    (sliceCol [0, 1] 5 [none, none]).all (fun x => x = none) = true ∧
    (["A", "B"] : List String) ≠ ["A"] := by
  decide

/-- Claim C6 counterexample: with `forwardPE` absent, `trailingEps = 5`,
`forwardEps = 5` and a current price of 50, the spec's fallback chains
resolve both P/Es to 10, but the app's only P/E display (`pe`) shows
`'N/A'`: no EPS-derived fallback exists and no trailing P/E is
computed. -/
theorem pe_no_fallback_cex :
    pe eps_only_info = PEDisplay.na ∧
    spec_forwardPE 50 eps_only_info = some 10 ∧
    spec_trailingPE 50 eps_only_info = some 10 ∧
    PEDisplay.na ≠ PEDisplay.value 10 := by
  refine ⟨rfl, ?_, ?_, by simp⟩ <;>
    norm_num [spec_forwardPE, spec_trailingPE, pe_from_eps, eps_only_info]

/-- Claim C6 (amended): the app computes a single P/E display — the
snapshot `forwardPE` verbatim when present (agreeing with the first step
of the spec's chain when that field is positive), and `'N/A'` (never 0)
when it is absent; there is no EPS fallback and no trailing P/E. -/
theorem pe_snapshot_only (info : Info) (p : ℚ) :
    (info.forwardPE = none →
      pe info = PEDisplay.na ∧ pe info ≠ PEDisplay.value 0) ∧
    (∀ v, info.forwardPE = some v →
      pe info = PEDisplay.value v ∧
      (0 < v → spec_forwardPE p info = some v)) := by
  constructor
  · intro h
    constructor
    · simp [pe, h]
    · simp [pe, h]
  · intro v h
    constructor
    · simp [pe, h]
    · intro hv
      simp [spec_forwardPE, h, hv]

/-- Witness for the amended C6 at two concrete snapshots. -/
theorem pe_snapshot_only_witness :
    pe all_none_info = PEDisplay.na ∧
    pe fpe7_info = PEDisplay.value 7 ∧
    spec_forwardPE 50 fpe7_info = some 7 :=
  ⟨((pe_snapshot_only all_none_info 50).1 rfl).1,
   ((pe_snapshot_only fpe7_info 50).2 7 rfl).1,
   ((pe_snapshot_only fpe7_info 50).2 7 rfl).2 (by norm_num)⟩

/-- Claim C7 counterexample: the Gateway's insider feed is obtainable
and nonempty (one purchase of 100 shares, so the spec's true-feed value
is 100), yet the stat box shows the market-cap heuristic 45, under the
plain label "3M Insider Buy Vol" with no estimate marking. -/
theorem insider_heuristic_cex :
    (processTicker (some [some 1])
        ⟨Fetch.ok mc_info, Fetch.ok none, Fetch.ok one_purchase⟩).statBox =
      some { m_cap := some 1000000, insider := 45, days := DaysText.na } ∧
    buy_volume one_purchase = 100 ∧
    (45 : ℚ) ≠ 100 ∧
    has_sub "estimat".toList (insider_stat_label.toList.map Char.toLower) =
      false := by
  refine ⟨?_, ?_, by norm_num, by decide⟩
  · norm_num [processTicker, mkStatBox, insider_val, days_text, mc_info]
  · have h : isBuyTx ⟨100, "Purchase of shares"⟩ = true := by decide
    norm_num [buy_volume, one_purchase, List.filter, h]

/-- Claim C7 (amended): the metrics loop output is entirely independent
of the insider-transaction feed — the insider value is always the
market-cap heuristic `insider_val`, and no estimate flag exists. -/
theorem insider_feed_ignored (col : Option (List (Option ℚ)))
    (g g' : TickerGateway) (hinfo : g.info = g'.info)
    (hcal : g.calendar = g'.calendar) :
    processTicker col g = processTicker col g' ∧
    (∀ info cal,
      (mkStatBox info cal).insider = insider_val info.marketCap) := by
  obtain ⟨i, c, f⟩ := g
  obtain ⟨i', c', f'⟩ := g'
  cases hinfo
  cases hcal
  exact ⟨rfl, fun _ _ => rfl⟩

/-- Witness for the amended C7: replacing a nonempty insider feed by a
failing one leaves the output unchanged. -/
theorem insider_feed_ignored_witness :
    processTicker (some [some 1])
        ⟨Fetch.ok mc_info, Fetch.ok none, Fetch.ok one_purchase⟩ =
      processTicker (some [some 1])
        ⟨Fetch.ok mc_info, Fetch.ok none, Fetch.fail⟩ :=
  (insider_feed_ignored (some [some 1]) _ _ rfl rfl).1

lemma lookup_map_pair (f : List (Option ℚ) → List (Option ℚ)) (s : String) :
    ∀ cols : List (String × List (Option ℚ)),
      (cols.map (fun p => (p.1, f p.2))).lookup s = (cols.lookup s).map f := by
  intro cols
  induction cols with
  | nil => rfl
  | cons p l ih =>
    obtain ⟨k, v⟩ := p
    by_cases h : s = k
    · subst h
      simp [List.lookup]
    · simp [List.lookup, beq_eq_false_iff_ne.mpr h, ih]

lemma align_lookup_congr (dates : List Int) (daysBack : Int) (s : String)
    (cols cols' : List (String × List (Option ℚ)))
    (h : cols.lookup s = cols'.lookup s) :
    (align dates daysBack cols).lookup s =
    (align dates daysBack cols').lookup s := by
  simp only [align]
  rw [lookup_map_pair (fun c => normCol (chart_col dates daysBack c)) s cols,
    lookup_map_pair (fun c => normCol (chart_col dates daysBack c)) s cols',
    h]

lemma metricsLoop_lookup_congr
    (data data' : String → Option (List (Option ℚ)))
    (gw gw' : String → TickerGateway) (s : String)
    (hd : data s = data' s) (hg : gw s = gw' s) :
    ∀ tickers : List String,
      (metricsLoop data gw tickers).lookup s =
      (metricsLoop data' gw' tickers).lookup s := by
  intro tickers
  induction tickers with
  | nil => rfl
  | cons t ts ih =>
    by_cases h : s = t
    · subst h
      simp [metricsLoop, List.lookup, hd, hg]
    · simp only [metricsLoop, List.map_cons, List.lookup,
        beq_eq_false_iff_ne.mpr h]
      simpa [metricsLoop] using ih

/-- Claim C9: failures are isolated.  (1) A change (e.g. a fetch
failure) in one symbol's data or Gateway leaves every other symbol's
metrics-loop entry unchanged; (2) likewise for the aligner: a symbol's
normalized series depends only on that symbol's own raw column; (3) a
price-cell error does not affect the same symbol's stat box; (4) an
`info` failure does not affect the same symbol's price cell; (5) a
calendar failure degrades only the earnings-countdown field, leaving
market cap and insider value intact. -/
theorem degradation_isolation
    (data data' : String → Option (List (Option ℚ)))
    (gw gw' : String → TickerGateway) (tickers : List String) (s : String)
    (dates : List Int) (daysBack : Int)
    (cols cols' : List (String × List (Option ℚ)))
    (hd : data s = data' s) (hg : gw s = gw' s)
    (hc : cols.lookup s = cols'.lookup s) :
    (metricsLoop data gw tickers).lookup s =
      (metricsLoop data' gw' tickers).lookup s ∧
    (align dates daysBack cols).lookup s =
      (align dates daysBack cols').lookup s ∧
    (∀ col col' g, (processTicker col g).statBox =
      (processTicker col' g).statBox) ∧
    (∀ col g g'', (processTicker col g).price =
      (processTicker col g'').price) ∧
    (∀ info cal cal',
      (mkStatBox info cal).m_cap = (mkStatBox info cal').m_cap ∧
      (mkStatBox info cal).insider = (mkStatBox info cal').insider) :=
  ⟨metricsLoop_lookup_congr data data' gw gw' s hd hg tickers,
   align_lookup_congr dates daysBack s cols cols' hc,
   fun _ _ _ => rfl, fun _ _ _ => rfl, fun _ _ _ => ⟨rfl, rfl⟩⟩

/-- Witness for C9: `"MSFT"`'s history fetch fails in one run and
succeeds in another; `"AAPL"`'s metrics entry and normalized series are
the same in both. -/
theorem degradation_isolation_witness :
    (metricsLoop (fun t => if t = "MSFT" then none else some [some 1])
        (fun _ => ⟨Fetch.fail, Fetch.fail, Fetch.fail⟩)
        ["AAPL", "MSFT"]).lookup "AAPL" =
      (metricsLoop (fun _ => some [some 1])
        (fun _ => ⟨Fetch.fail, Fetch.fail, Fetch.fail⟩)
        ["AAPL", "MSFT"]).lookup "AAPL" ∧
    (align [0, 1] 5 [("AAPL", [some 1, some 1]), ("MSFT", [])]).lookup
        "AAPL" =
      (align [0, 1] 5 [("AAPL", [some 1, some 1]),
        ("MSFT", [some 2, some 2])]).lookup "AAPL" := by
  have h := degradation_isolation
    (fun t => if t = "MSFT" then none else some [some 1])
    (fun _ => some [some 1])
    (fun _ => ⟨Fetch.fail, Fetch.fail, Fetch.fail⟩)
    (fun _ => ⟨Fetch.fail, Fetch.fail, Fetch.fail⟩)
    ["AAPL", "MSFT"] "AAPL" [0, 1] 5
    [("AAPL", [some 1, some 1]), ("MSFT", [])]
    [("AAPL", [some 1, some 1]), ("MSFT", [some 2, some 2])]
    (by decide) rfl (by decide)
  exact ⟨h.1, h.2.1⟩
